import Mathlib

/-!
Shallow embedding of the typescript-error-reporter-action repository
(`src/reporter.ts`, here `src/unnamed/part_000`, and `src/index.ts`).

Source files embedded:
  * `reporter.ts`: `readProperties`, `parseLocation`, `uploader`, `batch`,
    `getAnnotationLevel`.
  * `index.ts`: the diagnostic-collection fallback chain of
    `performCompilation` and the threshold gate of `typecheck`.

File text is modelled as `List Char` (one entry per UTF-16 code unit of the
JavaScript string); diagnostics, annotations and remote API calls are plain
structures.  Remote effects (the `octokit.checks.create` / `update` calls of
`uploader`) are modelled as a trace of call records, with explicit oracles
for which remote calls fail, mirroring the `try`/`catch` structure of the
source.
-/

namespace TSER

/-- `DiagnosticCategory` of the TypeScript library: the categories a
diagnostic can carry.  `getAnnotationLevel` matches on `Error` and `Warning`
and defaults otherwise. -/
inductive DiagnosticCategory where
  | Warning
  | Error
  | Suggestion
  | Message
deriving DecidableEq, Repr

/-- `DiagnosticMessageChain` of the TypeScript library: a message node with
its own text and a (possibly empty) list of child nodes (`next`). -/
inductive DiagnosticMessageChain where
  | mk (messageText : String) (next : List DiagnosticMessageChain)

/-- Top-level text of a message-chain node. -/
def DiagnosticMessageChain.messageText : DiagnosticMessageChain → String
  | .mk t _ => t

/-- Child nodes of a message-chain node. -/
def DiagnosticMessageChain.next : DiagnosticMessageChain → List DiagnosticMessageChain
  | .mk _ n => n

/-- A diagnostic's `messageText` is either a flat string or a chain of
nested nodes (`string | DiagnosticMessageChain` in the TypeScript types). -/
inductive MessageText where
  | str (s : String)
  | chain (c : DiagnosticMessageChain)

/-- The part of a TypeScript `SourceFile` the reporter uses: its `fileName`
and the result of `getFullText()` (as a list of code units). -/
structure SourceFile where
  fileName : String
  fullText : List Char

/-- The part of a TypeScript `Diagnostic` the reporter uses.  `start` is the
optional 0-based character offset into the file, `length` the optional span
length. -/
structure Diagnostic where
  category : DiagnosticCategory
  file : Option SourceFile
  start : Option Nat
  length : Option Nat
  messageText : MessageText

/-- Loop body of `parseLocation` (reporter.ts lines 29-43): scan the
remaining content with `pos` characters of the scan budget left, carrying
the line accumulator `l` (1-based) and column accumulator `c`.  The
JavaScript loop `for (let i = 0; i < content.length && i < position; i++)`
stops at `min(content.length, position)`; a newline increments the line and
resets the column to 0, any other character increments the column. -/
def parseLocGo : List Char → Nat → Nat → Nat → Nat × Nat
  | [], _, l, c => (l, c)
  | _ :: _, 0, l, c => (l, c)
  | ch :: rest, pos + 1, l, c =>
    if ch = '\n' then parseLocGo rest pos (l + 1) 0
    else parseLocGo rest pos l (c + 1)

/-- `parseLocation` (reporter.ts lines 29-43): convert a character offset in
`content` into a 1-based line and a column count. -/
def parseLocation (content : List Char) (position : Nat) : Nat × Nat :=
  parseLocGo content position 1 0

/-- The record `readProperties` returns: JavaScript objects `{}`,
`{ file }`, `{ file, line, col }` are modelled with `Option` fields
(`none` = property absent).  `line` and `col` are the strings `` `${line}` ``
and `` `${column}` `` of the source. -/
structure Properties where
  file : Option String
  line : Option String
  col : Option String
deriving DecidableEq, Repr

/-- `readProperties` (reporter.ts lines 19-27).  `const fileName = file &&
file.fileName; if (!fileName) return {}` is falsy when the diagnostic has no
file or the file name is the empty string; `if (!start) return { file }` is
falsy when `start` is absent or `0`. -/
def readProperties (d : Diagnostic) : Properties :=
  match d.file with
  | none => ⟨none, none, none⟩
  | some f =>
    if f.fileName = "" then ⟨none, none, none⟩
    else
      match d.start with
      | none => ⟨some f.fileName, none, none⟩
      | some s =>
        if s = 0 then ⟨some f.fileName, none, none⟩
        else
          let lc := parseLocation f.fullText s
          ⟨some f.fileName, some (toString lc.1), some (toString lc.2)⟩

/-- `getAnnotationLevel` (reporter.ts lines 119-128): severity category to
annotation level. -/
def getAnnotationLevel (d : Diagnostic) : String :=
  match d.category with
  | .Error => "failure"
  | .Warning => "warning"
  | _ => "notice"

/-- One step of `batch`'s `reduce` (reporter.ts lines 105-117): `current =
batches[batches.length - 1]; current.push(input); if (current.length ===
size) batches.push([])`.  The in-place push onto the last batch is modelled
by replacing the last element. -/
def batchStep (size : Nat) (batches : List (List α)) (input : α) : List (List α) :=
  let current := batches.getLast?.getD [] ++ [input]
  let updated := batches.dropLast ++ [current]
  if current.length = size then updated ++ [[]] else updated

/-- `batch` (reporter.ts lines 105-117): `inputs.reduce(..., [[]])`. -/
def batch (size : Nat) (inputs : List α) : List (List α) :=
  inputs.foldl (batchStep size) [[]]

mutual

/-- `flattenDiagnosticMessageText` of the TypeScript library (an external
capability called by `uploader` at reporter.ts line 80), modelled from that
library's implementation: emit the node's text, preceded (at positive
indent) by the separator and two spaces per indent level, then recurse into
the children at `indent + 1`. -/
def flattenChainAux (newLine : String) (indent : Nat) : DiagnosticMessageChain → String
  | .mk text next =>
    (if indent = 0 then "" else newLine ++ String.join (List.replicate indent "  ")) ++ text
      ++ flattenChainListAux newLine (indent + 1) next

/-- The `for (const kid of diag.next)` loop of
`flattenDiagnosticMessageText`: concatenate the flattening of each child. -/
def flattenChainListAux (newLine : String) (indent : Nat) : List DiagnosticMessageChain → String
  | [] => ""
  | c :: rest => flattenChainAux newLine indent c ++ flattenChainListAux newLine indent rest

end

/-- `ts.flattenDiagnosticMessageText(messageText, newLine)` on a
`string | DiagnosticMessageChain` argument: a flat string is returned as is,
a chain is flattened from indent 0. -/
def flattenDiagnosticMessageText (diag : MessageText) (newLine : String) : String :=
  match diag with
  | .str s => s
  | .chain c => flattenChainAux newLine 0 c

/-- JavaScript `String.prototype.replace` with a string pattern (used at
reporter.ts lines 73-76): replace the first occurrence of `pat` by `repl`,
leaving the string unchanged when `pat` does not occur. -/
def replaceFirst (pat repl : List Char) : List Char → List Char
  | [] => if pat = [] then repl else []
  | ch :: rest =>
    if pat.isPrefixOf (ch :: rest) then repl ++ (ch :: rest).drop pat.length
    else ch :: replaceFirst pat repl rest

/-- The GitHub Actions ambient context `uploader` reads: the pull-request
head SHA when the payload has a pull request, the push SHA, the repository
owner and name, and the `RUNNER_WORKSPACE` environment variable. -/
structure Context where
  payloadPullRequestHeadSha : Option String
  sha : String
  owner : String
  repo : String
  runnerWorkspace : String
deriving DecidableEq, Repr

/-- The annotation object built per diagnostic in `uploader` (reporter.ts
lines 70-82).  `start_line`/`end_line` are `Number(line)` where `line` may
be absent; `none` models the resulting `NaN`. -/
structure Annotation where
  path : String
  start_line : Option Nat
  end_line : Option Nat
  annotation_level : String
  message : String
deriving DecidableEq, Repr

/-- Argument record of the `octokit.checks.create` call (reporter.ts lines
59-65). -/
structure CheckCreateCall where
  owner : String
  repo : String
  name : String
  head_sha : String
  status : String
deriving DecidableEq, Repr

/-- Argument record of the `octokit.checks.update` call (reporter.ts lines
84-95). -/
structure CheckUpdateCall where
  owner : String
  repo : String
  check_run_id : Nat
  status : String
  conclusion : Option String
  title : String
  summary : String
  annotations : List Annotation
deriving DecidableEq, Repr

/-- A remote API call issued by `uploader`, as a trace record. -/
inductive ApiCall where
  | create (c : CheckCreateCall)
  | update (u : CheckUpdateCall)
deriving DecidableEq, Repr

/-- The annotation built for one diagnostic inside the batch loop
(reporter.ts lines 70-82): destructure `readProperties`, default `file` to
`""`, strip the first occurrence of `` `${RUNNER_WORKSPACE}/${repo}/` ``
from the path, duplicate the line into `start_line` and `end_line`, map the
severity, and flatten the message chain with `'\n'`. -/
def mkAnnot (ctx : Context) (d : Diagnostic) : Annotation :=
  let props := readProperties d
  let file := props.file.getD ""
  let line := props.line
  { path := (replaceFirst (ctx.runnerWorkspace ++ "/" ++ ctx.repo ++ "/").toList []
      file.toList).asString,
    start_line := line.bind String.toNat?,
    end_line := line.bind String.toNat?,
    annotation_level := getAnnotationLevel d,
    message := flattenDiagnosticMessageText d.messageText "\n" }

/-- Result of a run of `uploader`: the remote calls issued in order, the
console log lines, and whether the returned promise rejected.  The body of
`uploader` is wrapped in `try`/`catch` and every `checks.update` carries a
`.catch` handler, so `threw` is `false` on every path of the source. -/
structure UploadOutcome where
  calls : List ApiCall
  logs : List String
  threw : Bool
deriving Repr

/-- The `for (const batch of batchedAnnotations)` loop of `uploader`
(reporter.ts lines 69-98).  `i` is the index of the current batch;
`updateFails i` is the oracle for whether the remote `checks.update` call
for batch `i` fails, in which case the attached `.catch` logs
`"upload fetch err"` and the loop continues. -/
def uploadLoop (ctx : Context) (checkRunId : Nat) (total : Nat) (updateFails : Nat → Bool) :
    Nat → List (List Diagnostic) → List ApiCall × List String
  | _, [] => ([], [])
  | i, b :: rest =>
    let call := ApiCall.update
      { owner := ctx.owner, repo := ctx.repo, check_run_id := checkRunId,
        status := "completed", conclusion := some "success",
        title := "TypeScript errors",
        summary := "Found " ++ toString total ++ " TypeScript errors",
        annotations := b.map (mkAnnot ctx) }
    let next := uploadLoop ctx checkRunId total updateFails (i + 1) rest
    (call :: next.1, (if updateFails i then ["upload fetch err"] else []) ++ next.2)

/-- The commit the check run is pinned to (reporter.ts lines 50-56): the
pull request's head SHA when the payload has a pull request, the push SHA
otherwise. -/
def refOf (ctx : Context) : String :=
  match ctx.payloadPullRequestHeadSha with
  | some prSha => prSha
  | none => ctx.sha

/-- `uploader` (reporter.ts lines 45-103) as a trace function.  `repoToken`
is the value of `getInput('repo_token')` (`""` when absent, which skips the
whole upload); `checkRunId` is the id the remote `checks.create` call
returns; `createFails` is the oracle for the `checks.create` call failing,
which the outer `try`/`catch` turns into the log line
`"error uploading annotations"`. -/
def uploader (ctx : Context) (repoToken : String) (checkRunId : Nat)
    (createFails : Bool) (updateFails : Nat → Bool)
    (diagnostics : List Diagnostic) : UploadOutcome :=
  if repoToken = "" then ⟨[], [], false⟩
  else
    let createCall : ApiCall := .create
      { owner := ctx.owner, repo := ctx.repo,
        name := "Update TypeScript error annotations", head_sha := refOf ctx,
        status := "in_progress" }
    if createFails then ⟨[createCall], ["error uploading annotations"], false⟩
    else
      let lo := uploadLoop ctx checkRunId diagnostics.length updateFails 0 (batch 50 diagnostics)
      ⟨createCall :: lo.1, lo.2, false⟩

/-- The annotations attached to a trace record (empty for the create
call). -/
def callAnnotations : ApiCall → List Annotation
  | .create _ => []
  | .update u => u.annotations

/-- Whether a trace record marks the check run completed with a
conclusion. -/
def isCompletedUpdate : ApiCall → Bool
  | .update u => u.status == "completed" && u.conclusion == some "success"
  | .create _ => false

/-- The diagnostic-collection fallback chain of `performCompilation`
(index.ts lines 90-100): syntactic diagnostics; if none, options plus
global diagnostics; if still none, semantic diagnostics. -/
def collectDiagnostics (syntactic options global semantic : List Diagnostic) : List Diagnostic :=
  if syntactic.length = 0 then
    if (options ++ global).length = 0 then semantic
    else options ++ global
  else syntactic

/-- Outcome of the threshold gate of `typecheck` (index.ts lines 58-63):
the log line always printed, whether `setFailed` is called, and the message
it is called with. -/
structure GateResult where
  log : String
  failed : Bool
  failMessage : Option String
deriving DecidableEq, Repr

/-- The threshold gate of `typecheck` (index.ts lines 58-63):
`errThreshold` is `Number(getInput('error_fail_threshold') || 0)`, i.e. `0`
when the input is absent; the log line is always printed and `setFailed`
fires exactly when `errors > errThreshold`. -/
def thresholdGate (errors : Nat) (errorFailThreshold : Option Nat) : GateResult :=
  let errThreshold := errorFailThreshold.getD 0
  let logString := "Found " ++ toString errors ++ " errors!"
  { log := logString,
    failed := decide (errors > errThreshold),
    failMessage := if errors > errThreshold then some logString else none }

/-- A concrete ambient context for concrete runs. -/
def ctxEx : Context :=
  { payloadPullRequestHeadSha := none, sha := "headsha", owner := "own",
    repo := "repo", runnerWorkspace := "/ws" }

/-- A two-node message chain: top-level text `"A"` with one child `"B"`. -/
def chainEx : DiagnosticMessageChain := .mk "A" [.mk "B" []]

/-- A diagnostic whose message is the chain `chainEx`, at offset 1 of a
one-character file. -/
def diagChainEx : Diagnostic :=
  { category := .Error, file := some { fileName := "f.ts", fullText := "x".toList },
    start := some 1, length := none, messageText := .chain chainEx }

/-- A diagnostic with a file and character offset 0. -/
def diagStartZeroEx : Diagnostic :=
  { category := .Error, file := some { fileName := "a.ts", fullText := "hello".toList },
    start := some 0, length := none, messageText := .str "m" }

/-- One character step of the `parseLocation` scan, as a fold step on the
`(line, column)` accumulator pair. -/
def locStep (lc : Nat × Nat) (ch : Char) : Nat × Nat :=
  if ch = '\n' then (lc.1 + 1, 0) else (lc.1, lc.2 + 1)

/-- `parseLocGo` is the left fold of `locStep` over the first
`min(position, length)` characters. -/
theorem parseLocGo_eq_foldl (content : List Char) (pos l c : Nat) :
    parseLocGo content pos l c = (content.take pos).foldl locStep (l, c) := by
  induction content generalizing pos l c with
  | nil => simp [parseLocGo]
  | cons ch rest ih =>
    cases pos with
    | zero => simp [parseLocGo]
    | succ p =>
      by_cases h : ch = '\n' <;>
        simp [parseLocGo, h, ih, List.take_succ_cons, List.foldl_cons, locStep]

/-- Folding `locStep` over a character list counts newlines into the line
component and, in the column component, counts the characters after the last
newline (or adds the whole length to the start column when there is no
newline). -/
theorem locStep_foldl_spec (xs : List Char) (l c : Nat) :
    xs.foldl locStep (l, c) =
      (l + xs.count '\n',
       if xs.count '\n' = 0 then c + xs.length
       else (xs.reverse.takeWhile (fun ch => ch ≠ '\n')).length) := by
  induction xs using List.reverseRecOn with
  | nil => simp
  | append_singleton xs ch ih =>
    rw [List.foldl_append, List.foldl_cons, List.foldl_nil, ih]
    by_cases hch : ch = '\n'
    · subst hch
      have h1 : (xs ++ ['\n']).count '\n' = xs.count '\n' + 1 := by
        simp [List.count_append]
      have h2 : ((xs ++ ['\n']).reverse.takeWhile (fun ch => ch ≠ '\n')) = [] := by
        simp [List.reverse_append, List.takeWhile_cons]
      simp [locStep, h1, h2]
      omega
    · have h1 : (xs ++ [ch]).count '\n' = xs.count '\n' := by
        simp [List.count_append, List.count_singleton', hch]
      have h2 : ((xs ++ [ch]).reverse.takeWhile (fun ch => ch ≠ '\n'))
          = ch :: (xs.reverse.takeWhile (fun ch => ch ≠ '\n')) := by
        simp [List.reverse_append, List.takeWhile_cons, hch]
      rw [locStep]
      simp only [h1, h2, if_neg hch, List.length_cons]
      by_cases h0 : xs.count '\n' = 0
      · simp [h0]
        omega
      · simp [h0]

/-- `parseLocation`, characterized by counting: the line is one plus the
number of newlines in the scanned prefix, the column is the number of
characters after the last newline of the scanned prefix. -/
theorem parseLocation_eq (content : List Char) (position : Nat) :
    parseLocation content position =
      (1 + (content.take position).count '\n',
       ((content.take position).reverse.takeWhile (fun ch => ch ≠ '\n')).length) := by
  rw [parseLocation, parseLocGo_eq_foldl, locStep_foldl_spec]
  by_cases h0 : (content.take position).count '\n' = 0
  · have hall : (content.take position).reverse.takeWhile (fun ch => ch ≠ '\n')
        = (content.take position).reverse := by
      rw [List.takeWhile_eq_self_iff]
      intro ch hch
      have hmem : ch ∈ content.take position := List.mem_reverse.1 hch
      have hnot : '\n' ∉ content.take position := List.count_eq_zero.1 h0
      simp only [ne_eq, decide_eq_true_eq]
      intro hcontra
      exact hnot (hcontra ▸ hmem)
    rw [if_pos h0, hall, List.length_reverse]
    simp
  · rw [if_neg h0]

/-- Taking `min position length` characters is the same as taking
`position` characters. -/
theorem take_min_eq (content : List α) (pos : Nat) :
    content.take (min pos content.length) = content.take pos := by
  rcases Nat.le_total pos content.length with h | h
  · rw [Nat.min_eq_left h]
  · rw [Nat.min_eq_right h, List.take_length, List.take_of_length_le h]

/-- One `reduce` step keeps the accumulator in the shape
`full batches ++ [partial last batch]`: every batch except the last has
exactly `size` elements, the last has fewer, and flattening recovers the
items consumed so far. -/
theorem batchStep_shape (size : Nat) (full : List (List α)) (last : List α) (x : α)
    (hfull : ∀ b ∈ full, b.length = size) (hlast : last.length < size) :
    ∃ full2 last2,
      batchStep size (full ++ [last]) x = full2 ++ [last2] ∧
      (∀ b ∈ full2, b.length = size) ∧ last2.length < size ∧
      full2.flatten ++ last2 = full.flatten ++ last ++ [x] := by
  by_cases h : (last ++ [x]).length = size
  · refine ⟨full ++ [last ++ [x]], [], ?_, ?_, ?_, ?_⟩
    · simp only [batchStep, List.getLast?_concat, Option.getD_some, List.dropLast_concat, h,
        if_pos rfl]
      simp [List.append_assoc]
    · intro b hb
      rcases List.mem_append.1 hb with h1 | h2
      · exact hfull b h1
      · rw [List.mem_singleton.1 h2]; exact h
    · simp only [List.length_nil]
      omega
    · simp [List.flatten_append, List.append_assoc]
  · refine ⟨full, last ++ [x], ?_, hfull, ?_, by simp [List.append_assoc]⟩
    · simp only [batchStep, List.getLast?_concat, Option.getD_some, List.dropLast_concat,
        if_neg h]
    · simp only [List.length_append, List.length_singleton] at h ⊢
      omega

/-- The `reduce` of `batch`, started from any well-shaped accumulator,
ends in a well-shaped accumulator whose flattening appends the inputs. -/
theorem batch_fold_shape (size : Nat) (inputs : List α) :
    ∀ full last, (∀ b ∈ full, b.length = size) → last.length < size →
    ∃ full2 last2,
      inputs.foldl (batchStep size) (full ++ [last]) = full2 ++ [last2] ∧
      (∀ b ∈ full2, b.length = size) ∧ last2.length < size ∧
      full2.flatten ++ last2 = full.flatten ++ last ++ inputs := by
  induction inputs with
  | nil =>
    intro full last hf hl
    exact ⟨full, last, by simp, hf, hl, by simp⟩
  | cons x xs ih =>
    intro full last hf hl
    obtain ⟨f1, l1, heq1, hf1, hl1, hj1⟩ := batchStep_shape size full last x hf hl
    obtain ⟨f2, l2, heq2, hf2, hl2, hj2⟩ := ih f1 l1 hf1 hl1
    refine ⟨f2, l2, ?_, hf2, hl2, ?_⟩
    · rw [List.foldl_cons, heq1, heq2]
    · rw [hj2, hj1]; simp [List.append_assoc]

/-- Shape of `batch size inputs` for positive `size`: some full batches of
exactly `size` items, then one final batch of fewer than `size` items
(possibly empty), flattening back to `inputs`. -/
theorem batch_shape (size : Nat) (hsize : 0 < size) (inputs : List α) :
    ∃ full last,
      batch size inputs = full ++ [last] ∧
      (∀ b ∈ full, b.length = size) ∧ last.length < size ∧
      full.flatten ++ last = inputs := by
  have h := batch_fold_shape size inputs [] [] (by simp) (by simpa using hsize)
  simpa [batch] using h

/-- Flattening a list of lists that all have length `size` gives
`count * size` elements. -/
theorem flatten_length_uniform (size : Nat) :
    ∀ full : List (List α), (∀ b ∈ full, b.length = size) →
      full.flatten.length = full.length * size := by
  intro full
  induction full with
  | nil => simp
  | cons b rest ih =>
    intro h
    have hb : b.length = size := h b (List.mem_cons_self b rest)
    have hrest := ih fun x hx => h x (List.mem_cons_of_mem b hx)
    simp [List.flatten_cons, hb, hrest, Nat.succ_mul, Nat.add_comm]

/-- Every call the batch loop issues is an update call that marks the check
run `"completed"` with conclusion `"success"`. -/
theorem uploadLoop_calls_completed (ctx : Context) (checkRunId total : Nat)
    (updateFails : Nat → Bool) :
    ∀ batches i, ∀ c ∈ (uploadLoop ctx checkRunId total updateFails i batches).1,
      ∃ u, c = .update u ∧ u.status = "completed" ∧ u.conclusion = some "success" := by
  intro batches
  induction batches with
  | nil => intro i c hc; simp [uploadLoop] at hc
  | cons b rest ih =>
    intro i c hc
    simp only [uploadLoop] at hc
    rcases List.mem_cons.1 hc with h | h
    · exact ⟨_, h, rfl, rfl⟩
    · exact ih (i + 1) c h

/-- The batch loop issues exactly one update call per batch. -/
theorem uploadLoop_calls_length (ctx : Context) (checkRunId total : Nat)
    (updateFails : Nat → Bool) :
    ∀ batches i, (uploadLoop ctx checkRunId total updateFails i batches).1.length
      = batches.length := by
  intro batches
  induction batches with
  | nil => intro i; simp [uploadLoop]
  | cons b rest ih => intro i; simp [uploadLoop, ih (i + 1)]

/-- The calls the batch loop issues do not depend on which update calls
fail: a failing call is logged and the loop continues unchanged. -/
theorem uploadLoop_calls_indep (ctx : Context) (checkRunId total : Nat)
    (f g : Nat → Bool) :
    ∀ batches i, (uploadLoop ctx checkRunId total f i batches).1
      = (uploadLoop ctx checkRunId total g i batches).1 := by
  intro batches
  induction batches with
  | nil => intro i; simp [uploadLoop]
  | cons b rest ih => intro i; simp [uploadLoop, ih (i + 1)]

/-- When the update call of the `j`-th remaining batch fails, the batch
loop logs `"upload fetch err"`. -/
theorem uploadLoop_log_mem (ctx : Context) (checkRunId total : Nat)
    (updateFails : Nat → Bool) :
    ∀ batches i j, j < batches.length → updateFails (i + j) = true →
      "upload fetch err" ∈ (uploadLoop ctx checkRunId total updateFails i batches).2 := by
  intro batches
  induction batches with
  | nil => intro i j hj _; simp at hj
  | cons b rest ih =>
    intro i j hj hf
    simp only [uploadLoop]
    rcases j with _ | j
    · rw [Nat.add_zero] at hf
      rw [hf]
      simp
    · have hj2 : j < rest.length := by simpa using hj
      have hf2 : updateFails (i + 1 + j) = true := by
        rw [show i + 1 + j = i + (j + 1) by omega]
        exact hf
      exact List.mem_append_right _ (ih (i + 1) j hj2 hf2)

end TSER

/-- C1: counterexample.  The claim says the batcher produces zero batches
for empty input, never emits an empty batch, and produces exactly
`length / size` batches when the length is an exact multiple of the size.
In fact `batch 50 [] = [[]]` (one batch, and it is empty), and
`batch 1 [0] = [[0], []]` has `2 ≠ 1/1` batches with a trailing empty
batch. -/
theorem C1_counterexample :
    (TSER.batch 50 ([] : List Nat)).length ≠ 0 ∧
    ([] : List Nat) ∈ TSER.batch 50 ([] : List Nat) ∧
    (TSER.batch 1 [(0 : Nat)]).length ≠ [(0 : Nat)].length / 1 := by
  decide

/-- C1 (amended): for any positive batch size, the batcher produces exactly
one batch — an empty one — for empty input, and for an input whose length is
an exact multiple of the batch size it produces `length / size + 1` batches,
the last of which is an empty trailing batch. -/
theorem C1_amended {α : Type} (size : Nat) (inputs : List α) (hsize : 0 < size)
    (hdvd : size ∣ inputs.length) :
    TSER.batch size ([] : List α) = [[]] ∧
    (TSER.batch size inputs).length = inputs.length / size + 1 ∧
    (TSER.batch size inputs).getLast? = some [] := by
  obtain ⟨full, last, heq, hfull, hlast, hflat⟩ := TSER.batch_shape size hsize inputs
  have hlen : inputs.length = full.length * size + last.length := by
    rw [← hflat]
    simp [TSER.flatten_length_uniform size full hfull]
  have hmod : inputs.length % size = last.length := by
    rw [hlen, Nat.mul_comm full.length size, Nat.mul_add_mod]
    exact Nat.mod_eq_of_lt hlast
  have hzero : last.length = 0 := by
    rw [← hmod]
    exact (Nat.mod_eq_zero_of_dvd hdvd)
  have hnil : last = [] := List.length_eq_zero.1 hzero
  have hdiv : inputs.length / size = full.length := by
    rw [hlen, hzero, Nat.add_zero, Nat.mul_div_cancel _ hsize]
  refine ⟨rfl, ?_, ?_⟩
  · rw [heq, hdiv]; simp
  · rw [heq, hnil, List.getLast?_concat]

/-- C1 (amended) at batch size 2 and input `[1, 2, 3, 4]`. -/
theorem C1_witness :
    TSER.batch 2 ([] : List Nat) = [[]] ∧
    (TSER.batch 2 [(1 : Nat), 2, 3, 4]).length = [(1 : Nat), 2, 3, 4].length / 2 + 1 ∧
    (TSER.batch 2 [(1 : Nat), 2, 3, 4]).getLast? = some [] :=
  C1_amended 2 [1, 2, 3, 4] (by decide) (by decide)

set_option maxRecDepth 4000

/-- C6: for every positive batch size, concatenating the batches in order
yields exactly the input list and every batch has length at most the batch
size; 120 items with batch size 50 yield batches of sizes 50, 50, 20. -/
theorem C6_spec {α : Type} (size : Nat) (inputs : List α) (hsize : 0 < size) :
    (TSER.batch size inputs).flatten = inputs ∧
    (∀ b ∈ TSER.batch size inputs, b.length ≤ size) ∧
    (TSER.batch 50 (List.range 120)).map List.length = [50, 50, 20] := by
  obtain ⟨full, last, heq, hfull, hlast, hflat⟩ := TSER.batch_shape size hsize inputs
  refine ⟨?_, ?_, by decide⟩
  · rw [heq]
    simpa [List.flatten_append] using hflat
  · intro b hb
    rw [heq] at hb
    rcases List.mem_append.1 hb with h1 | h2
    · exact (hfull b h1).le
    · rw [List.mem_singleton.1 h2]; exact hlast.le

/-- C6 at batch size 2 and input `[5, 6, 7]`. -/
theorem C6_witness :
    (TSER.batch 2 [(5 : Nat), 6, 7]).flatten = [5, 6, 7] :=
  (C6_spec 2 [5, 6, 7] (by decide)).1

/-- C4: counterexample.  On the file text `"a\nbb\nccc"` at offset 4 the
Position Resolver does not return line 2, column 1: the scan passes the
characters at indices 0..3 (`'a'`, `'\n'`, `'b'`, `'b'`), so the column
counter reaches 2. -/
theorem C4_counterexample :
    TSER.parseLocation "a\nbb\nccc".toList 4 ≠ (2, 1) := by
  decide

/-- C4 (amended): the Position Resolver applied to the file text
`"a\nbb\nccc"` at offset 4 returns line 2 and column 2. -/
theorem C4_amended :
    TSER.parseLocation "a\nbb\nccc".toList 4 = (2, 2) := by
  decide

/-- C5: for every file text and 0-based offset, the Position Resolver
returns line `1 + (number of newlines in the first min(offset, length)
characters)` and column equal to the number of characters after the last
newline of that scanned prefix (the whole prefix length when it has no
newline); an offset beyond the text length yields the position at
end-of-text. -/
theorem C5_spec (content : List Char) (position : Nat) :
    TSER.parseLocation content position =
      (1 + ((content.take (min position content.length)).count '\n'),
       (((content.take (min position content.length)).reverse.takeWhile
          (fun ch => ch ≠ '\n'))).length) ∧
    (content.length ≤ position →
      TSER.parseLocation content position = TSER.parseLocation content content.length) := by
  constructor
  · rw [TSER.take_min_eq, TSER.parseLocation_eq]
  · intro h
    rw [TSER.parseLocation_eq, TSER.parseLocation_eq, List.take_of_length_le h,
      List.take_length]

/-- C5 at the text `"x\ny"` with the out-of-bounds offset 9. -/
theorem C5_witness :
    TSER.parseLocation "x\ny".toList 9 = TSER.parseLocation "x\ny".toList "x\ny".toList.length :=
  (C5_spec "x\ny".toList 9).2 (by decide)

/-- C2: counterexample.  For a diagnostic whose message is the chain
`"A"` with child `"B"`, the message placed in the uploaded annotation record
is `"A\n  B"`: the child's text is concatenated in, not the top-level text
alone. -/
theorem C2_counterexample :
    (((TSER.uploader TSER.ctxEx "tok" 1 false (fun _ => false)
        [TSER.diagChainEx]).calls.map TSER.callAnnotations).flatten.map
      TSER.Annotation.message) = ["A\n  B"] ∧
    TSER.diagChainEx.messageText = .chain (.mk "A" [.mk "B" []]) ∧
    "A\n  B" ≠ "A" := by
  refine ⟨by decide, rfl, by decide⟩

/-- C2 (amended): for every diagnostic whose message is a chain of nested
message nodes, the message text placed in the annotation record that is
uploaded is the flattening of the whole chain with `'\n'`: the top-level
node's text followed by the flattening of the child nodes at indent 1 —
child texts are concatenated into it. -/
theorem C2_amended (ctx : TSER.Context) (d : TSER.Diagnostic) (t : String)
    (kids : List TSER.DiagnosticMessageChain)
    (h : d.messageText = .chain (.mk t kids)) :
    (TSER.mkAnnot ctx d).message = t ++ TSER.flattenChainListAux "\n" 1 kids := by
  simp [TSER.mkAnnot, TSER.flattenDiagnosticMessageText, h, TSER.flattenChainAux]

/-- C2 (amended) at the concrete chain `"A"` with child `"B"`. -/
theorem C2_witness :
    (TSER.mkAnnot TSER.ctxEx TSER.diagChainEx).message
      = "A" ++ TSER.flattenChainListAux "\n" 1 [.mk "B" []] :=
  C2_amended TSER.ctxEx TSER.diagChainEx "A" [.mk "B" []] rfl

/-- C3: counterexample.  A token-present run over an empty diagnostic list
issues a `checks.update` call whose record has `status: 'completed'` and
`conclusion: 'success'` — the uploader does issue calls that mark the check
run completed with a conclusion. -/
theorem C3_counterexample :
    ((TSER.uploader TSER.ctxEx "tok" 7 false (fun _ => false) []).calls.any
      TSER.isCompletedUpdate) = true := by
  decide

/-- C3 (amended): the Annotation Uploader creates the remote check run in
"in progress" state, but the completion step is not absent: every batch
update call (and there is always at least one) marks the check run
"completed" with conclusion "success". -/
theorem C3_amended (ctx : TSER.Context) (repoToken : String) (checkRunId : Nat)
    (updateFails : Nat → Bool) (diagnostics : List TSER.Diagnostic)
    (htok : repoToken ≠ "") :
    (TSER.uploader ctx repoToken checkRunId false updateFails diagnostics).calls.head? =
      some (.create
        { owner := ctx.owner, repo := ctx.repo,
          name := "Update TypeScript error annotations",
          head_sha := TSER.refOf ctx, status := "in_progress" }) ∧
    (TSER.uploader ctx repoToken checkRunId false updateFails diagnostics).calls.tail ≠ [] ∧
    ∀ c ∈ (TSER.uploader ctx repoToken checkRunId false updateFails diagnostics).calls.tail,
      ∃ u, c = .update u ∧ u.status = "completed" ∧ u.conclusion = some "success" := by
  refine ⟨by simp [TSER.uploader, htok], ?_, ?_⟩
  · have hlen : ((TSER.uploader ctx repoToken checkRunId false updateFails
        diagnostics).calls.tail).length = (TSER.batch 50 diagnostics).length := by
      simp [TSER.uploader, htok, TSER.uploadLoop_calls_length]
    obtain ⟨full, last, heq, -, -, -⟩ := TSER.batch_shape 50 (by norm_num) diagnostics
    intro hnil
    rw [hnil] at hlen
    simp [heq] at hlen
  · intro c hc
    have hmem : c ∈ (TSER.uploadLoop ctx checkRunId diagnostics.length updateFails 0
        (TSER.batch 50 diagnostics)).1 := by
      simpa [TSER.uploader, htok] using hc
    exact TSER.uploadLoop_calls_completed ctx checkRunId diagnostics.length updateFails
      (TSER.batch 50 diagnostics) 0 c hmem

/-- C3 (amended) at a concrete token-present run. -/
theorem C3_witness :
    (TSER.uploader TSER.ctxEx "tok" 7 false (fun _ => false) []).calls.head? =
      some (.create
        { owner := "own", repo := "repo",
          name := "Update TypeScript error annotations",
          head_sha := "headsha", status := "in_progress" }) ∧
    (TSER.uploader TSER.ctxEx "tok" 7 false (fun _ => false) []).calls.tail ≠ [] :=
  ⟨(C3_amended TSER.ctxEx "tok" 7 (fun _ => false) [] (by decide)).1,
   (C3_amended TSER.ctxEx "tok" 7 (fun _ => false) [] (by decide)).2.1⟩

/-- C7: the full-program diagnostic set is collected by a fallback chain
that stops at the first non-empty stage: syntactic diagnostics; if none,
options plus global diagnostics; if still none, semantic diagnostics. -/
theorem C7_spec (syntactic options global semantic : List TSER.Diagnostic) :
    (syntactic ≠ [] →
      TSER.collectDiagnostics syntactic options global semantic = syntactic) ∧
    (syntactic = [] → options ++ global ≠ [] →
      TSER.collectDiagnostics syntactic options global semantic = options ++ global) ∧
    (syntactic = [] → options ++ global = [] →
      TSER.collectDiagnostics syntactic options global semantic = semantic) := by
  refine ⟨fun h => ?_, fun h1 h2 => ?_, fun h1 h2 => ?_⟩
  · simp [TSER.collectDiagnostics, List.length_eq_zero, h]
  · subst h1
    have hcond : ¬ ((options ++ global).length = 0) := fun hc =>
      h2 (List.length_eq_zero.1 hc)
    unfold TSER.collectDiagnostics
    rw [if_pos (show ([] : List TSER.Diagnostic).length = 0 from rfl), if_neg hcond]
  · subst h1
    obtain ⟨ho, hg⟩ := List.append_eq_nil.1 h2
    subst ho
    subst hg
    simp [TSER.collectDiagnostics]

/-- C7 with a non-empty syntactic stage. -/
theorem C7_witness :
    TSER.collectDiagnostics [TSER.diagStartZeroEx] [] [] [] = [TSER.diagStartZeroEx] :=
  (C7_spec [TSER.diagStartZeroEx] [] [] []).1 (by simp)

/-- C8: the run is marked failing exactly when the diagnostic count
strictly exceeds the threshold (0 when the input is absent), the count is
always logged, count 5 with threshold 10 passes, and count 11 with
threshold 10 fails. -/
theorem C8_spec (errors : Nat) (errorFailThreshold : Option Nat) :
    ((TSER.thresholdGate errors errorFailThreshold).failed = true ↔
      errorFailThreshold.getD 0 < errors) ∧
    (TSER.thresholdGate errors errorFailThreshold).log =
      "Found " ++ toString errors ++ " errors!" ∧
    (TSER.thresholdGate 5 (some 10)).failed = false ∧
    (TSER.thresholdGate 11 (some 10)).failed = true := by
  refine ⟨?_, rfl, by decide, by decide⟩
  simp [TSER.thresholdGate]

/-- C9: failures of individual batch update calls are logged and do not
change which calls are issued; the uploader completes without throwing, one
update call is issued per batch regardless of failures. -/
theorem C9_spec (ctx : TSER.Context) (repoToken : String) (checkRunId : Nat)
    (updateFails : Nat → Bool) (diagnostics : List TSER.Diagnostic)
    (htok : repoToken ≠ "") :
    (TSER.uploader ctx repoToken checkRunId false updateFails diagnostics).threw = false ∧
    (TSER.uploader ctx repoToken checkRunId false updateFails diagnostics).calls =
      (TSER.uploader ctx repoToken checkRunId false (fun _ => false) diagnostics).calls ∧
    (TSER.uploader ctx repoToken checkRunId false updateFails diagnostics).calls.length =
      (TSER.batch 50 diagnostics).length + 1 ∧
    (∀ i, i < (TSER.batch 50 diagnostics).length → updateFails i = true →
      "upload fetch err" ∈
        (TSER.uploader ctx repoToken checkRunId false updateFails diagnostics).logs) := by
  refine ⟨by simp [TSER.uploader, htok], ?_, ?_, ?_⟩
  · simp [TSER.uploader, htok, TSER.uploadLoop_calls_indep ctx checkRunId diagnostics.length
      updateFails (fun _ => false)]
  · simp [TSER.uploader, htok, TSER.uploadLoop_calls_length]
  · intro i hi hf
    have hmem := TSER.uploadLoop_log_mem ctx checkRunId diagnostics.length updateFails
      (TSER.batch 50 diagnostics) 0 i hi (by simpa using hf)
    simpa [TSER.uploader, htok] using hmem

/-- C9 at a run whose every update call fails. -/
theorem C9_witness :
    (TSER.uploader TSER.ctxEx "tok" 3 false (fun _ => true) []).threw = false ∧
    "upload fetch err" ∈ (TSER.uploader TSER.ctxEx "tok" 3 false (fun _ => true) []).logs :=
  ⟨(C9_spec TSER.ctxEx "tok" 3 (fun _ => true) [] (by decide)).1,
   (C9_spec TSER.ctxEx "tok" 3 (fun _ => true) [] (by decide)).2.2.2 0 (by decide) rfl⟩

/-- C10: for every diagnostic with an associated source file and character
offset 0, the normalizer treats the 0 offset exactly like a missing offset
and (for a non-empty file name) returns only the file path, with no line
and no column. -/
theorem C10_spec (d : TSER.Diagnostic) (f : TSER.SourceFile)
    (hf : d.file = some f) (h0 : d.start = some 0) :
    TSER.readProperties d = TSER.readProperties { d with start := none } ∧
    (f.fileName ≠ "" →
      TSER.readProperties d = ⟨some f.fileName, none, none⟩) := by
  obtain ⟨cat, file, st, len, msg⟩ := d
  dsimp only at hf h0
  subst hf
  subst h0
  constructor
  · by_cases hname : f.fileName = "" <;> simp [TSER.readProperties, hname]
  · intro hname
    simp [TSER.readProperties, hname]

/-- C10 at a concrete diagnostic at offset 0 of `"a.ts"`. -/
theorem C10_witness :
    TSER.readProperties TSER.diagStartZeroEx = ⟨some "a.ts", none, none⟩ :=
  (C10_spec TSER.diagStartZeroEx
    { fileName := "a.ts", fullText := "hello".toList } rfl rfl).2 (by decide)
